import Mathlib

/-!
# Verification of the polyfreshy fresh-wallet cluster detector

Shallow embedding of `src/server.js` (the dashboard variant is the primary
source; the console-only variant after it shares the same core logic).

Conventions of the embedding:
* JS `Map`s are association lists in insertion order (`jsMapGet`, `jsMapSet`);
  JS `Set`s are lists without duplicates built by `::`.
* Timestamps (`Date.now()` values) are `Int` so that cutoffs such as
  `now - timeWindowMs` can go negative exactly as in JS.
* USDC amounts are `ℚ`: `Number(amount) / 1e6` is modelled as exact division
  by 1000000 (no claim concerns double-precision rounding).
* `async` functions that can only fail inside an internal `try/catch` are
  total functions; external lookups (`provider.getTransactionCount`,
  `queryFilter`) are oracles returning `Option` / `Except`, `none`/`.error`
  meaning the underlying promise rejected.
-/

/-- `String.prototype.toLowerCase()` restricted to ASCII (the wallet
addresses and market questions in play are ASCII); mapped over the character
list so it evaluates by kernel reduction. -/
def jsToLower (s : String) : String := String.mk (s.data.map Char.toLower)

/-- `m.get(k)` on a JS `Map` modelled as an association list. -/
def jsMapGet {α : Type} (m : List (String × α)) (k : String) : Option α :=
  (m.find? (fun p => p.1 == k)).map (fun p => p.2)

/-- `m.set(k, v)` on a JS `Map`: overwrite in place if the key is present
(keeping its insertion position), otherwise append at the end. -/
def jsMapSet {α : Type} (m : List (String × α)) (k : String) (v : α) :
    List (String × α) :=
  if m.any (fun p => p.1 == k) then
    m.map (fun p => if p.1 == k then (k, v) else p)
  else
    m ++ [(k, v)]

-- ===========================================================================
-- Content filter: the regular expressions of `shouldFilterMarket`
-- (src/server.js lines 144-173) as a small explicit matcher.
-- ===========================================================================

/-- `\d` of JS regexes. -/
def isDigitChar (c : Char) : Bool := '0' ≤ c && c ≤ '9'

/-- `\s` of JS regexes (ASCII part; the questions involved are ASCII). -/
def isSpaceChar (c : Char) : Bool :=
  c == ' ' || c == '\t' || c == '\n' || c == '\r' || c == '\x0b' || c == '\x0c'

/-- The regex constructs that appear in `filterPatterns`. -/
inductive RegexItem where
  | lit (s : String)            -- a literal string (patterns are matched on the
                                -- lowercased question, so `/i` is immaterial)
  | digits                      -- `\d+`
  | optSep                      -- `[\s-]?`
  | anyStar                     -- `.*` (not matching line terminators)
  | colonDigitsStar             -- `[:\d]*`
  | spacesStar                  -- `\s*`
  | alt (ss : List String)      -- `(a|b|c)` over literal words

/-- Does some prefix of `cs` match the item sequence?  `RegExp.test` only asks
for existence of a match, so greediness of `*`/`+` is irrelevant and each
quantifier is an existential over how many characters it consumes. -/
def matchItems : List RegexItem → List Char → Bool
  | [], _ => true
  | .lit l :: rest, cs =>
      l.toList.isPrefixOf cs && matchItems rest (cs.drop l.toList.length)
  | .digits :: rest, cs =>
      (List.range cs.length).any (fun j =>
        (cs.take (j + 1)).all isDigitChar && matchItems rest (cs.drop (j + 1)))
  | .optSep :: rest, cs =>
      matchItems rest cs ||
        (match cs with
         | [] => false
         | c :: cs' => (isSpaceChar c || c == '-') && matchItems rest cs')
  | .anyStar :: rest, cs =>
      (List.range (cs.length + 1)).any (fun j =>
        (cs.take j).all (fun c => !(c == '\n' || c == '\r')) &&
          matchItems rest (cs.drop j))
  | .colonDigitsStar :: rest, cs =>
      (List.range (cs.length + 1)).any (fun j =>
        (cs.take j).all (fun c => c == ':' || isDigitChar c) &&
          matchItems rest (cs.drop j))
  | .spacesStar :: rest, cs =>
      (List.range (cs.length + 1)).any (fun j =>
        (cs.take j).all isSpaceChar && matchItems rest (cs.drop j))
  | .alt ss :: rest, cs =>
      ss.any (fun l =>
        l.toList.isPrefixOf cs && matchItems rest (cs.drop l.toList.length))

/-- Unanchored matching: try every suffix, as `RegExp.test` does. -/
def regexTestAux (p : List RegexItem) : List Char → Bool
  | [] => matchItems p []
  | c :: cs => matchItems p (c :: cs) || regexTestAux p cs

def regexTest (p : List RegexItem) (s : String) : Bool :=
  regexTestAux p s.toList

/-- The `filterPatterns` array of `shouldFilterMarket`, in source order. -/
def filterPatterns : List (List RegexItem) :=
  [ -- Time-based patterns
    [.digits, .optSep, .lit "min"],
    [.digits, .optSep, .lit "minute"],
    [.lit "1-min"],
    [.lit "5-min"],
    [.lit "15-min"],
    -- Up or down patterns
    [.lit "up or down"],
    [.lit "higher or lower"],
    [.lit "above or below"],
    -- Price at specific time
    [.lit "price", .anyStar, .digits, .colonDigitsStar, .spacesStar,
      .alt ["am", "pm", "utc", "et", "pt"]],
    [.lit "at ", .digits, .colonDigitsStar, .spacesStar,
      .alt ["am", "pm", "utc", "et", "pt"]],
    -- Crypto + short term indicators
    [.alt ["bitcoin", "btc", "ethereum", "eth", "solana", "sol", "doge",
           "xrp", "crypto"],
      .anyStar, .digits, .colonDigitsStar, .spacesStar, .alt ["am", "pm", "utc"]],
    [.alt ["bitcoin", "btc", "ethereum", "eth", "solana", "sol", "doge",
           "xrp", "crypto"],
      .anyStar, .alt ["up", "down", "higher", "lower"]] ]

-- ===========================================================================
-- Data model
-- ===========================================================================

/-- One entry of `walletCache`: `{ isFresh, checkedAt }`. -/
structure WalletRecord where
  isFresh : Bool
  checkedAt : Int
deriving DecidableEq

/-- One entry of a `betsByOutcome` bucket:
`{ wallet, timestamp, txHash, isFresh, amount }`. -/
structure Bet where
  wallet : String
  timestamp : Int
  txHash : String
  isFresh : Bool
  amount : ℚ
deriving DecidableEq

instance : Inhabited Bet := ⟨⟨"", 0, "", false, 0⟩⟩

/-- Result of `getMarketInfo` when it yields a row (fields that may be
`null`/`undefined` in JS are `Option`s). -/
structure MarketInfo where
  question : Option String
  outcome : Option String
  price : Option ℚ
  slug : Option String
  image : Option String
  conditionId : Option String
deriving DecidableEq

/-- `alert.latestBet` is a millisecond number at creation but is overwritten
with `new Date().toISOString()` (a string) on update; `asIso t` stands for
the ISO rendering of time `t`. -/
inductive TimeVal where
  | asMillis (t : Int)
  | asIso (t : Int)
deriving DecidableEq

/-- One element of `alert.wallets`. -/
structure WalletEntry where
  address : String
  txHash : String
  timestamp : Int
  amount : ℚ
deriving DecidableEq

/-- The alert record built by `checkAndAlert`. -/
structure Alert where
  id : Int
  outcomeId : String
  question : String
  outcome : String
  price : Option ℚ
  slug : Option String
  image : Option String
  polymarketUrl : Option String
  freshWallets : Nat
  totalAmount : ℚ
  firstBet : Int
  latestBet : TimeVal
  sampleTx : String
  wallets : List WalletEntry
  timestamp : Int
deriving DecidableEq

/-- The socket.io emissions that matter to the spec:
`io.emit('newAlert', …)`, `io.emit('alertUpdate', …)`, `io.emit('stats', …)`. -/
inductive SockEvent where
  | newAlert (a : Alert)
  | alertUpdate (a : Alert)
  | statsEmit
deriving DecidableEq

/-- The process-wide mutable state of server.js: the four global maps/sets,
the `alerts` list and the numeric `stats` fields used by the core. -/
structure SysState where
  betsByOutcome : List (String × List Bet)
  walletCache : List (String × WalletRecord)
  alertedOutcomes : List String
  alerts : List Alert
  totalTrades : Nat
  freshWalletsDetected : Nat
  alertsTriggered : Nat
  lastBlock : Nat
deriving DecidableEq

/-- Startup state: every map empty, every counter zero. -/
def initState : SysState := ⟨[], [], [], [], 0, 0, 0, 0⟩

/-- The fields of an `OrderFilled` log that `processTrade` destructures
(`orderHash` and `fee` are ignored by the code and omitted). -/
structure TradeEvent where
  maker : String
  taker : String
  makerAssetId : String
  takerAssetId : String
  makerAmountFilled : Nat
  takerAmountFilled : Nat
  transactionHash : String
deriving DecidableEq

-- CONFIG values used by the core.
def freshWalletThreshold : Nat := 10
def timeWindowMs : Int := 24 * 60 * 60 * 1000
def walletCacheTtlMs : Int := 60 * 60 * 1000
def zeroAddress : String := "0x0000000000000000000000000000000000000000"

-- ===========================================================================
-- Operations
-- ===========================================================================

/-- `shouldFilterMarket(marketInfo)` (src/server.js 144-173): `false` when
`marketInfo` is `null` or its `question` is falsy, otherwise test the
lowercased question against every pattern. -/
def shouldFilterMarket (marketInfo : Option MarketInfo) : Bool :=
  match marketInfo with
  | none => false
  | some mi =>
    match mi.question with
    | none => false
    | some q =>
      if q.isEmpty then false   -- the empty string is falsy in JS
      else filterPatterns.any (fun p => regexTest p (jsToLower q))

/-- Result of one `isWalletFresh` call: the boolean verdict, the wallet cache
afterwards, and how many times the upstream `getTransactionCount` was hit
(0 or 1) — the observable the spec's mock call-count assertion watches. -/
structure FreshCheck where
  verdict : Bool
  cache : List (String × WalletRecord)
  upstreamCalls : Nat
deriving DecidableEq

/-- `isWalletFresh(provider, walletAddress)` (src/server.js 70-84).
`txCount` is the provider oracle; `none` models a rejected
`getTransactionCount` promise, which the code catches, returning `false`. -/
def isWalletFresh (txCount : String → Option Nat) (now : Int)
    (cache : List (String × WalletRecord)) (walletAddress : String) :
    FreshCheck :=
  let hit : Option Bool :=
    match jsMapGet cache (jsToLower walletAddress) with
    | some cached =>
        if now - cached.checkedAt < walletCacheTtlMs then some cached.isFresh
        else none
    | none => none
  match hit with
  | some v => ⟨v, cache, 0⟩
  | none =>
    match txCount walletAddress with
    | some txc =>
        let fresh := decide (txc ≤ 2)
        ⟨fresh, jsMapSet cache (jsToLower walletAddress) ⟨fresh, now⟩, 1⟩
    | none => ⟨false, cache, 1⟩

/-- One iteration of the `for (const [outcomeId, bets] of betsByOutcome)` loop
of `cleanupOldBets`: `betsByOutcome.delete` when the filtered bucket is empty,
`betsByOutcome.set` (in place) otherwise. -/
def cleanupEntry (cutoff : Int) (p : String × List Bet) :
    Option (String × List Bet) :=
  let filteredBets := p.2.filter (fun bet => decide (cutoff < bet.timestamp))
  if filteredBets.isEmpty then none else some (p.1, filteredBets)

/-- `cleanupOldBets()` (src/server.js 86-96): for every outcome keep only the
bets with `timestamp > cutoff`, deleting outcome keys whose bucket empties.
The JS `for…of` sets or deletes only the key under iteration, which on a JS
`Map` is exactly an order-preserving `filterMap` over the entries. -/
def cleanupOldBets (windowMs now : Int) (m : List (String × List Bet)) :
    List (String × List Bet) :=
  m.filterMap (cleanupEntry (now - windowMs))

/-- `freshBets.reduce((sum, b) => sum + (b.amount || 0), 0)`. -/
def sumAmounts (l : List Bet) : ℚ :=
  l.foldl (fun sum b => sum + b.amount) 0

/-- The in-place mutation of the alert object that `alerts.find` returned:
replace the first alert with this outcome id. -/
def replaceFirstAlert : List Alert → String → Alert → List Alert
  | [], _, _ => []
  | a :: rest, oid, upd =>
      if a.outcomeId == oid then upd :: rest
      else a :: replaceFirstAlert rest oid upd

/-- `existing.amount = (existing.amount || 0) + amountUSDC` applied to the
first bucket entry whose wallet matches case-insensitively (`Array.find`). -/
def accumulateFirst : List Bet → String → ℚ → List Bet
  | [], _, _ => []
  | b :: bs, wallet, amt =>
      if jsToLower b.wallet == jsToLower wallet then
        { b with amount := b.amount + amt } :: bs
      else b :: accumulateFirst bs wallet amt

/-- `checkAndAlert(outcomeId)` (src/server.js 175-248).  `resolve` is the
market-metadata oracle: the value `await getMarketInfo(outcomeId)` settles to
(`getMarketInfo` caches its first successful answer, and `checkAndAlert`
reaches it at most once per outcome, so a pure function is exact).
Returns the new state and the events emitted. -/
def checkAndAlert (resolve : String → Option MarketInfo) (thr : Nat)
    (now : Int) (s : SysState) (outcomeId : String) :
    SysState × List SockEvent :=
  if s.alertedOutcomes.contains outcomeId then
    -- Update existing alert count and amount
    match s.alerts.find? (fun a => a.outcomeId == outcomeId) with
    | some existingAlert =>
        let bets := (jsMapGet s.betsByOutcome outcomeId).getD []
        let freshBets := bets.filter (fun b => b.isFresh)
        let upd := { existingAlert with
          freshWallets := freshBets.length
          totalAmount := sumAmounts freshBets
          latestBet := TimeVal.asIso now }
        ({ s with alerts := replaceFirstAlert s.alerts outcomeId upd },
         [SockEvent.alertUpdate upd])
    | none => (s, [])
  else
    let bets := (jsMapGet s.betsByOutcome outcomeId).getD []
    let freshBets := bets.filter (fun b => b.isFresh)
    if thr ≤ freshBets.length then
      let marketInfo := resolve outcomeId
      if shouldFilterMarket marketInfo then
        -- Filtered: permanently mark alerted without any emission
        ({ s with alertedOutcomes := outcomeId :: s.alertedOutcomes }, [])
      else
        let totalAmount := sumAmounts freshBets
        let polymarketUrl : Option String :=
          match marketInfo.bind (fun mi => mi.slug) with
          | some sl => some ("https://polymarket.com/event/" ++ sl)
          | none =>
            match marketInfo.bind (fun mi => mi.conditionId) with
            | some cid => some ("https://polymarket.com/market/" ++ cid)
            | none => none
        -- `marketInfo?.question || 'Unknown Market'` (empty string is falsy)
        let questionStr :=
          match marketInfo.bind (fun mi => mi.question) with
          | some q => if q.isEmpty then "Unknown Market" else q
          | none => "Unknown Market"
        let outcomeStr :=
          match marketInfo.bind (fun mi => mi.outcome) with
          | some o => if o.isEmpty then "Unknown" else o
          | none => "Unknown"
        let a : Alert :=
          { id := now
            outcomeId := outcomeId
            question := questionStr
            outcome := outcomeStr
            price := marketInfo.bind (fun mi => mi.price)
            slug := marketInfo.bind (fun mi => mi.slug)
            image := marketInfo.bind (fun mi => mi.image)
            polymarketUrl := polymarketUrl
            freshWallets := freshBets.length
            totalAmount := totalAmount
            firstBet := ((freshBets.head?).getD default).timestamp
            latestBet :=
              TimeVal.asMillis (((freshBets.getLast?).getD default).timestamp)
            sampleTx := ((freshBets.head?).getD default).txHash
            wallets := freshBets.map (fun b =>
              ⟨b.wallet, b.txHash, b.timestamp, b.amount⟩)
            timestamp := now }
        let alerts1 := a :: s.alerts          -- alerts.unshift(alert)
        let alerts2 := if 50 < alerts1.length then alerts1.dropLast else alerts1
        ({ s with
            alertedOutcomes := outcomeId :: s.alertedOutcomes
            alertsTriggered := s.alertsTriggered + 1
            alerts := alerts2 },
         [SockEvent.newAlert a, SockEvent.statsEmit])
    else (s, [])

/-- The body of `if (isFresh) { … }` inside `processTrade`
(src/server.js 267-292): bump the counter, then either append a first-time
entry for the wallet and run `checkAndAlert`, or accumulate the amount into
the wallet's existing entry. -/
def recordFreshBet (resolve : String → Option MarketInfo) (thr : Nat)
    (now : Int) (s : SysState) (assetId wallet txHash : String)
    (rawAmount : Nat) : SysState × List SockEvent :=
  let s := { s with freshWalletsDetected := s.freshWalletsDetected + 1 }
  let existingBets := (jsMapGet s.betsByOutcome assetId).getD []
  let alreadyTracked :=
    existingBets.any (fun bet => jsToLower bet.wallet == jsToLower wallet)
  let amountUSDC : ℚ := (rawAmount : ℚ) / 1000000
  if alreadyTracked then
    ({ s with betsByOutcome :=
        (jsMapSet s.betsByOutcome assetId
          (accumulateFirst existingBets wallet amountUSDC)) }, [])
  else
    let s' := { s with betsByOutcome :=
        (jsMapSet s.betsByOutcome assetId
          (existingBets ++ [⟨wallet, now, txHash, true, amountUSDC⟩])) }
    checkAndAlert resolve thr now s' assetId

/-- One iteration of the `for (const {wallet, assetId, amount} of participants)`
loop of `processTrade`. -/
def processParticipant (txCount : String → Option Nat)
    (resolve : String → Option MarketInfo) (thr : Nat) (now : Int)
    (s : SysState) (wallet assetId : String) (rawAmount : Nat)
    (txHash : String) : SysState × List SockEvent :=
  if wallet == zeroAddress then (s, [])
  else
    let chk := isWalletFresh txCount now s.walletCache wallet
    let s := { s with walletCache := chk.cache }
    if chk.verdict then recordFreshBet resolve thr now s assetId wallet txHash rawAmount
    else (s, [])

/-- `processTrade(provider, event)` (src/server.js 250-294): count the trade,
then handle the maker side and the taker side in order. -/
def processTrade (txCount : String → Option Nat)
    (resolve : String → Option MarketInfo) (thr : Nat) (now : Int)
    (s : SysState) (ev : TradeEvent) : SysState × List SockEvent :=
  let s0 := { s with totalTrades := s.totalTrades + 1 }
  let r1 := processParticipant txCount resolve thr now s0 ev.maker
    ev.makerAssetId ev.makerAmountFilled ev.transactionHash
  let r2 := processParticipant txCount resolve thr now r1.1 ev.taker
    ev.takerAssetId ev.takerAmountFilled ev.transactionHash
  (r2.1, r1.2 ++ r2.2)

/-- `for (const event of events) await processTrade(provider, event)`. -/
def processEvents (txCount : String → Option Nat)
    (resolve : String → Option MarketInfo) (thr : Nat) (now : Int)
    (s : SysState) : List TradeEvent → SysState × List SockEvent
  | [] => (s, [])
  | ev :: rest =>
      let r := processTrade txCount resolve thr now s ev
      let r' := processEvents txCount resolve thr now r.1 rest
      (r'.1, r.2 ++ r'.2)

/-- The inner chunk loop of `startBot` (src/server.js 1074-1085), with a fuel
argument so the recursion is structural; `scanChunks` below supplies fuel
`head + 1 - fromBlock`, which the loop can never exhaust since every chunk
advances `fromBlock` by at least one block.  `fetch` is
`exchange.queryFilter('OrderFilled', fromBlock, toBlock)`; `.error` models a
rejected promise, which aborts the loop (the `Bool` is false) without
touching the cursor.  State mutated by already-processed chunks persists. -/
def scanChunksAux (fetch : Nat → Nat → Except Unit (List TradeEvent))
    (txCount : String → Option Nat) (resolve : String → Option MarketInfo)
    (thr : Nat) (now : Int) :
    Nat → Nat → Nat → SysState → SysState × List SockEvent × Bool
  | 0, _, _, s => (s, [], true)
  | fuel + 1, fromBlock, head, s =>
    if head < fromBlock then (s, [], true)
    else
      let toBlock := min (fromBlock + 10 - 1) head   -- CHUNK_SIZE = 10
      match fetch fromBlock toBlock with
      | .error _ => (s, [], false)
      | .ok events =>
          let pr := processEvents txCount resolve thr now s events
          let rec' := scanChunksAux fetch txCount resolve thr now fuel
            (toBlock + 1) head pr.1
          (rec'.1, pr.2 ++ rec'.2.1, rec'.2.2)

/-- The chunked scan of the inclusive range `[fromBlock, head]`. -/
def scanChunks (fetch : Nat → Nat → Except Unit (List TradeEvent))
    (txCount : String → Option Nat) (resolve : String → Option MarketInfo)
    (thr : Nat) (now : Int) (fromBlock head : Nat) (s : SysState) :
    SysState × List SockEvent × Bool :=
  scanChunksAux fetch txCount resolve thr now (head + 1 - fromBlock)
    fromBlock head s

/-- One cycle of the `while (true)` loop of `startBot`
(src/server.js 1065-1098).  `headResult` is `provider.getBlockNumber()`;
the cursor (`lastProcessedBlock`) is threaded explicitly and is assigned
`latestBlock` only after the whole chunk loop finishes; any caught error
skips the assignment, the sweep and the stats emission. -/
def runCycle (fetch : Nat → Nat → Except Unit (List TradeEvent))
    (txCount : String → Option Nat) (resolve : String → Option MarketInfo)
    (thr : Nat) (now : Int) (headResult : Except Unit Nat) (cursor : Nat)
    (s : SysState) : Nat × SysState × List SockEvent :=
  match headResult with
  | .error _ => (cursor, s, [])
  | .ok latestBlock =>
    let s := { s with lastBlock := latestBlock }
    if cursor < latestBlock then
      let scan := scanChunks fetch txCount resolve thr now (cursor + 1)
        latestBlock s
      if scan.2.2 then
        let s' := { scan.1 with betsByOutcome :=
          (cleanupOldBets timeWindowMs now scan.1.betsByOutcome) }
        (latestBlock, s', scan.2.1 ++ [SockEvent.statsEmit])
      else
        (cursor, scan.1, scan.2.1)
    else
      let s' := { s with betsByOutcome :=
        (cleanupOldBets timeWindowMs now s.betsByOutcome) }
      (cursor, s', [SockEvent.statsEmit])

/-- Modelled from the spec: "processing blocks `[a, b]` in a single pass" —
an unchunked scan that issues one query for the whole range, the reference
point of the round-trip property (§8); the source only ever scans in chunks
of 10. -/
def scanRangeDirect (fetch : Nat → Nat → Except Unit (List TradeEvent))
    (txCount : String → Option Nat) (resolve : String → Option MarketInfo)
    (thr : Nat) (now : Int) (fromBlock toBlock : Nat) (s : SysState) :
    SysState × List SockEvent × Bool :=
  match fetch fromBlock toBlock with
  | .error _ => (s, [], false)
  | .ok events =>
      let pr := processEvents txCount resolve thr now s events
      (pr.1, pr.2, true)

-- ===========================================================================
-- Drivers and observables used by the claims
-- ===========================================================================

/-- Feed a sequence of fresh bets `(wallet, txHash, rawAmount)` on one fixed
outcome through the fresh-participant path (`recordFreshBet`). -/
def runFreshBets (resolve : String → Option MarketInfo) (thr : Nat)
    (now : Int) (oid : String) :
    List (String × String × Nat) → SysState → SysState × List SockEvent
  | [], s => (s, [])
  | (w, tx, amt) :: rest, s =>
      let r := recordFreshBet resolve thr now s oid w tx amt
      let r' := runFreshBets resolve thr now oid rest r.1
      (r'.1, r.2 ++ r'.2)

/-- Feed a sequence of fresh bets `(assetId, wallet, txHash, rawAmount)` on
arbitrary outcomes through the fresh-participant path. -/
def runBets (resolve : String → Option MarketInfo) (thr : Nat) (now : Int) :
    List (String × String × String × Nat) → SysState →
    SysState × List SockEvent
  | [], s => (s, [])
  | (aid, w, tx, amt) :: rest, s =>
      let r := recordFreshBet resolve thr now s aid w tx amt
      let r' := runBets resolve thr now rest r.1
      (r'.1, r.2 ++ r'.2)

def countNewAlerts (evs : List SockEvent) : Nat :=
  evs.countP (fun e => match e with | .newAlert _ => true | _ => false)

def countAlertUpdates (evs : List SockEvent) : Nat :=
  evs.countP (fun e => match e with | .alertUpdate _ => true | _ => false)

/-- The outcome id an emitted event is about (`stats` snapshots have none). -/
def eventOutcome : SockEvent → Option String
  | .newAlert a => some a.outcomeId
  | .alertUpdate a => some a.outcomeId
  | .statsEmit => none

def countEventsFor (oid : String) (evs : List SockEvent) : Nat :=
  evs.countP (fun e => eventOutcome e == some oid)

/-- "No two live entries for the same wallet, compared case-insensitively". -/
def DistinctWallets (l : List Bet) : Prop :=
  (l.map (fun b => jsToLower b.wallet)).Nodup

instance (l : List Bet) : Decidable (DistinctWallets l) := by
  unfold DistinctWallets; infer_instance

/-- The per-outcome alert lifecycle of §4.4, as reached by runs that feed one
outcome from a clean start: below threshold nothing is alerted and no alert
record exists; from the threshold on, the outcome is marked and exactly one
alert record for it is live. -/
def AlertPhase (thr : Nat) (oid : String) (s : SysState) (k : Nat) : Prop :=
  (k < thr ∧ s.alertedOutcomes.contains oid = false ∧ s.alerts = [])
  ∨ (thr ≤ k ∧ s.alertedOutcomes.contains oid = true
      ∧ ∃ a, s.alerts = [a] ∧ a.outcomeId = oid)

/-- No alert record for this outcome is in the `alerts` list. -/
def NoAlertFor (oid : String) (s : SysState) : Prop :=
  ∀ a ∈ s.alerts, a.outcomeId ≠ oid

/-- A trade both of whose participants are the zero address: `processTrade`
counts it and skips both sides. -/
def nullTrade : TradeEvent :=
  ⟨zeroAddress, zeroAddress, "0", "0", 0, 0, "0xdead"⟩

/-- A log oracle under which the chunk `[100,109]` yields one trade and every
other chunk query rejects. -/
def cexFetch : Nat → Nat → Except Unit (List TradeEvent) :=
  fun a _ => if a == 100 then .ok [nullTrade] else .error ()

-- ===========================================================================
-- Helper lemmas
-- ===========================================================================

theorem jsMapGet_nil {α : Type} (k : String) :
    jsMapGet ([] : List (String × α)) k = none := rfl

theorem find?_setMap_self {α : Type} (m : List (String × α)) (k : String)
    (v : α) (hany : m.any (fun p => p.1 == k) = true) :
    (m.map (fun p => if p.1 == k then (k, v) else p)).find? (fun p => p.1 == k)
      = some (k, v) := by
  induction m with
  | nil => simp at hany
  | cons p m ih =>
    rcases hp : (p.1 == k) with _ | _
    · have hany' : m.any (fun p => p.1 == k) = true := by
        simpa [List.any_cons, hp] using hany
      rw [List.map_cons, if_neg (by simp [hp]),
        List.find?_cons_of_neg _ (by simp [hp]), ih hany']
    · rw [List.map_cons, if_pos (by simp [hp]),
        List.find?_cons_of_pos _ (by simp)]

theorem find?_setMap_ne {α : Type} (m : List (String × α)) (k k' : String)
    (v : α) (h : k' ≠ k) :
    (m.map (fun p => if p.1 == k then (k, v) else p)).find? (fun p => p.1 == k')
      = m.find? (fun p => p.1 == k') := by
  induction m with
  | nil => simp
  | cons p m ih =>
    rcases hp : (p.1 == k) with _ | _
    · rcases hp' : (p.1 == k') with _ | _
      · rw [List.map_cons, if_neg (by simp [hp]),
          List.find?_cons_of_neg _ (by simp [hp']),
          List.find?_cons_of_neg _ (by simp [hp']), ih]
      · rw [List.map_cons, if_neg (by simp [hp]),
          List.find?_cons_of_pos _ (by simp [hp']),
          List.find?_cons_of_pos _ (by simp [hp'])]
    · have hpk : p.1 = k := eq_of_beq hp
      have hne : (k == k') = false :=
        beq_eq_false_iff_ne.mpr (fun hkk => h hkk.symm)
      have hne' : (p.1 == k') = false := by rw [hpk]; exact hne
      rw [List.map_cons, if_pos (by simp [hp]),
        List.find?_cons_of_neg _ (by simp [hne]),
        List.find?_cons_of_neg _ (by simp [hne']), ih]

theorem jsMapGet_set_self {α : Type} (m : List (String × α)) (k : String)
    (v : α) : jsMapGet (jsMapSet m k v) k = some v := by
  unfold jsMapSet jsMapGet
  split
  · rename_i hany
    rw [find?_setMap_self m k v hany]
    rfl
  · rename_i hany
    have hnone : m.find? (fun p => p.1 == k) = none :=
      List.find?_eq_none.mpr (fun x hx hbeq =>
        hany (List.any_eq_true.mpr ⟨x, hx, hbeq⟩))
    rw [List.find?_append, hnone]
    simp

theorem jsMapGet_set_ne {α : Type} (m : List (String × α)) (k k' : String)
    (v : α) (h : k' ≠ k) : jsMapGet (jsMapSet m k v) k' = jsMapGet m k' := by
  unfold jsMapSet jsMapGet
  split
  · rw [find?_setMap_ne m k k' v h]
  · have hk : ((k, v).1 == k') = false :=
      beq_eq_false_iff_ne.mpr (fun hkk => h hkk.symm)
    simp [List.find?_append, hk]

theorem checkAndAlert_fst_betsByOutcome (resolve : String → Option MarketInfo)
    (thr : Nat) (now : Int) (s : SysState) (oid : String) :
    (checkAndAlert resolve thr now s oid).1.betsByOutcome = s.betsByOutcome := by
  unfold checkAndAlert
  split
  · split <;> simp
  · dsimp only
    split
    · split <;> simp
    · simp

theorem checkAndAlert_fst_walletCache (resolve : String → Option MarketInfo)
    (thr : Nat) (now : Int) (s : SysState) (oid : String) :
    (checkAndAlert resolve thr now s oid).1.walletCache = s.walletCache := by
  unfold checkAndAlert
  split
  · split <;> simp
  · dsimp only
    split
    · split <;> simp
    · simp

theorem checkAndAlert_fst_alertedOutcomes (resolve : String → Option MarketInfo)
    (thr : Nat) (now : Int) (s : SysState) (oid : String) :
    (checkAndAlert resolve thr now s oid).1.alertedOutcomes = s.alertedOutcomes
    ∨ (checkAndAlert resolve thr now s oid).1.alertedOutcomes
        = oid :: s.alertedOutcomes := by
  unfold checkAndAlert
  split
  · split <;> simp
  · dsimp only
    split
    · split <;> simp
    · simp

theorem accumulateFirst_fields (l : List Bet) (w : String) (amt : ℚ) :
    (accumulateFirst l w amt).map
        (fun b => (b.wallet, b.timestamp, b.txHash, b.isFresh))
      = l.map (fun b => (b.wallet, b.timestamp, b.txHash, b.isFresh)) := by
  induction l with
  | nil => rfl
  | cons b bs ih =>
    unfold accumulateFirst
    split <;> simp [ih]

theorem accumulateFirst_map_wallet (l : List Bet) (w : String) (amt : ℚ) :
    (accumulateFirst l w amt).map (fun b => jsToLower b.wallet)
      = l.map (fun b => jsToLower b.wallet) := by
  induction l with
  | nil => rfl
  | cons b bs ih =>
    unfold accumulateFirst
    split <;> simp [ih]

theorem accumulateFirst_length (l : List Bet) (w : String) (amt : ℚ) :
    (accumulateFirst l w amt).length = l.length := by
  have h := congrArg List.length (accumulateFirst_fields l w amt)
  simpa using h

theorem sumAmounts_foldl (l : List Bet) : ∀ init : ℚ,
    l.foldl (fun sum b => sum + b.amount) init
      = init + (l.map (fun b => b.amount)).sum := by
  induction l with
  | nil => intro init; simp
  | cons b bs ih =>
    intro init
    rw [List.foldl_cons, ih, List.map_cons, List.sum_cons]
    ring

theorem sumAmounts_eq_sum_map (l : List Bet) :
    sumAmounts l = (l.map (fun b => b.amount)).sum := by
  unfold sumAmounts
  rw [sumAmounts_foldl]
  ring

theorem accumulateFirst_sum (l : List Bet) (w : String) (amt : ℚ)
    (h : jsToLower w ∈ l.map (fun b => jsToLower b.wallet)) :
    sumAmounts (accumulateFirst l w amt) = sumAmounts l + amt := by
  rw [sumAmounts_eq_sum_map, sumAmounts_eq_sum_map]
  induction l with
  | nil => simp at h
  | cons b bs ih =>
    unfold accumulateFirst
    rcases hb : (jsToLower b.wallet == jsToLower w) with _ | _
    · rw [if_neg (by simp [hb])]
      have hne : jsToLower b.wallet ≠ jsToLower w := beq_eq_false_iff_ne.mp hb
      have hmem : jsToLower w ∈ bs.map (fun b => jsToLower b.wallet) := by
        rcases (by simpa using h :
            jsToLower w = jsToLower b.wallet
              ∨ jsToLower w ∈ bs.map (fun b => jsToLower b.wallet)) with h1 | h1
        · exact absurd h1.symm hne
        · exact h1
      rw [List.map_cons, List.map_cons, List.sum_cons, List.sum_cons, ih hmem]
      ring
    · rw [if_pos (by simp [hb])]
      rw [List.map_cons, List.map_cons, List.sum_cons, List.sum_cons]
      dsimp only
      ring

theorem replaceFirstAlert_head (a : Alert) (rest : List Alert) (oid : String)
    (upd : Alert) (h : a.outcomeId = oid) :
    replaceFirstAlert (a :: rest) oid upd = upd :: rest := by
  unfold replaceFirstAlert
  rw [if_pos (by simp [h])]

theorem mem_replaceFirstAlert (l : List Alert) (oid : String) (upd : Alert) :
    ∀ x ∈ replaceFirstAlert l oid upd, x = upd ∨ x ∈ l := by
  induction l with
  | nil => simp [replaceFirstAlert]
  | cons a rest ih =>
    unfold replaceFirstAlert
    split
    · intro x hx
      rcases List.mem_cons.mp hx with hx | hx
      · exact Or.inl hx
      · exact Or.inr (List.mem_cons_of_mem _ hx)
    · intro x hx
      rcases List.mem_cons.mp hx with hx | hx
      · exact Or.inr (hx ▸ List.mem_cons_self _ _)
      · rcases ih x hx with h | h
        · exact Or.inl h
        · exact Or.inr (List.mem_cons_of_mem _ h)

theorem filter_isFresh_of_all (l : List Bet)
    (h : ∀ b ∈ l, b.isFresh = true) :
    l.filter (fun b => b.isFresh) = l :=
  List.filter_eq_self.mpr h

theorem jsMapGet_cons {α : Type} (p : String × α) (m : List (String × α))
    (k : String) :
    jsMapGet (p :: m) k = if p.1 == k then some p.2 else jsMapGet m k := by
  unfold jsMapGet
  rcases h : (p.1 == k) with _ | _
  · rw [List.find?_cons_of_neg _ (by simp [h]), if_neg (by simp [h])]
  · rw [List.find?_cons_of_pos _ (by simp [h]), if_pos (by simp [h])]
    rfl

theorem jsMapGet_not_mem_keys {α : Type} (m : List (String × α)) (k : String)
    (h : k ∉ m.map Prod.fst) : jsMapGet m k = none := by
  unfold jsMapGet
  rw [List.find?_eq_none.mpr]
  · rfl
  · intro x hx hbeq
    exact h (List.mem_map.mpr ⟨x, hx, eq_of_beq hbeq⟩)

theorem cleanupEntry_none (c : Int) (p : String × List Bet)
    (h : cleanupEntry c p = none) :
    (p.2.filter (fun bet => decide (c < bet.timestamp))).isEmpty = true := by
  simp only [cleanupEntry] at h
  by_contra hne
  rw [if_neg (by simpa using hne)] at h
  exact Option.noConfusion h

theorem cleanupEntry_some (c : Int) (p q : String × List Bet)
    (h : cleanupEntry c p = some q) :
    q = (p.1, p.2.filter (fun bet => decide (c < bet.timestamp)))
    ∧ (p.2.filter (fun bet => decide (c < bet.timestamp))).isEmpty = false := by
  simp only [cleanupEntry] at h
  split at h
  · exact Option.noConfusion h
  · rename_i hne
    exact ⟨(Option.some.inj h).symm, by simpa using hne⟩

theorem cleanupOldBets_keys_subset (windowMs now : Int)
    (m : List (String × List Bet)) (k : String)
    (hk : k ∈ (cleanupOldBets windowMs now m).map Prod.fst) :
    k ∈ m.map Prod.fst := by
  induction m with
  | nil => simp [cleanupOldBets] at hk
  | cons p m ih =>
    unfold cleanupOldBets at hk ih
    cases hce : cleanupEntry (now - windowMs) p with
    | none =>
        rw [List.filterMap_cons_none hce] at hk
        rcases List.mem_map.mp (ih hk) with ⟨x, hx, hxk⟩
        exact List.mem_map.mpr ⟨x, List.mem_cons_of_mem _ hx, hxk⟩
    | some q =>
        rw [List.filterMap_cons_some hce] at hk
        rcases List.mem_map.mp hk with ⟨x, hx, hxk⟩
        rcases List.mem_cons.mp hx with hx | hx
        · subst hx
          have hq := (cleanupEntry_some _ _ _ hce).1
          rw [List.map_cons, List.mem_cons]
          left
          rw [← hxk, hq]
        · rcases List.mem_map.mp (ih (List.mem_map.mpr ⟨x, hx, hxk⟩)) with
            ⟨y, hy, hyk⟩
          exact List.mem_map.mpr ⟨y, List.mem_cons_of_mem _ hy, hyk⟩

theorem cleanupOldBets_get_none (windowMs now : Int)
    (m : List (String × List Bet)) (oid : String)
    (h : oid ∉ m.map Prod.fst) :
    jsMapGet (cleanupOldBets windowMs now m) oid = none :=
  jsMapGet_not_mem_keys _ _
    (fun hk => h (cleanupOldBets_keys_subset _ _ _ _ hk))

theorem cleanupOldBets_get (windowMs now : Int) (m : List (String × List Bet))
    (hkeys : (m.map Prod.fst).Nodup) (oid : String) :
    jsMapGet (cleanupOldBets windowMs now m) oid
      = (jsMapGet m oid).bind (fun bets =>
          let live := bets.filter (fun b => decide (now - windowMs < b.timestamp))
          if live.isEmpty then none else some live) := by
  induction m with
  | nil => simp [cleanupOldBets, jsMapGet]
  | cons p m ih =>
    have hk1 : p.1 ∉ m.map Prod.fst := by
      have := hkeys
      rw [List.map_cons, List.nodup_cons] at this
      exact this.1
    have hkeys' : (m.map Prod.fst).Nodup := by
      have := hkeys
      rw [List.map_cons, List.nodup_cons] at this
      exact this.2
    unfold cleanupOldBets at ih ⊢
    rw [jsMapGet_cons]
    rcases hoid : (p.1 == oid) with _ | _
    · rw [if_neg (by simp [hoid])]
      cases hce : cleanupEntry (now - windowMs) p with
      | none =>
          rw [List.filterMap_cons_none hce]
          exact ih hkeys'
      | some q =>
          rw [List.filterMap_cons_some hce]
          have hq := (cleanupEntry_some _ _ _ hce).1
          rw [jsMapGet_cons]
          have : (q.1 == oid) = false := by rw [hq]; exact hoid
          rw [if_neg (by simp [this])]
          exact ih hkeys'
    · have hpk : p.1 = oid := eq_of_beq hoid
      rw [if_pos (by simp [hoid])]
      cases hce : cleanupEntry (now - windowMs) p with
      | none =>
          have hemp := cleanupEntry_none _ _ hce
          rw [List.filterMap_cons_none hce]
          rw [show List.filterMap (cleanupEntry (now - windowMs)) m
              = cleanupOldBets windowMs now m from rfl]
          rw [cleanupOldBets_get_none windowMs now m oid (hpk ▸ hk1)]
          simp only [Option.bind_eq_bind, Option.some_bind]
          rw [if_pos hemp]
      | some q =>
          have hq := (cleanupEntry_some _ _ _ hce).1
          have hemp := (cleanupEntry_some _ _ _ hce).2
          rw [List.filterMap_cons_some hce]
          rw [jsMapGet_cons]
          have hq1 : (q.1 == oid) = true := by rw [hq]; exact hoid
          rw [if_pos (by simp [hq1])]
          simp only [Option.bind_eq_bind, Option.some_bind]
          rw [if_neg (by simp [hemp]), hq]

theorem isWalletFresh_fail (cache : List (String × WalletRecord)) (a : String)
    (now : Int)
    (hnc : ∀ r, jsMapGet cache (jsToLower a) = some r →
      ¬(now - r.checkedAt < walletCacheTtlMs)) :
    isWalletFresh (fun _ => none) now cache a = ⟨false, cache, 1⟩ := by
  simp only [isWalletFresh]
  cases hg : jsMapGet cache (jsToLower a) with
  | none => rfl
  | some r =>
      dsimp only
      rw [if_neg (hnc r hg)]

theorem isWalletFresh_query (txCount : String → Option Nat)
    (cache : List (String × WalletRecord)) (a : String) (now : Int) (n : Nat)
    (hnc : ∀ r, jsMapGet cache (jsToLower a) = some r →
      ¬(now - r.checkedAt < walletCacheTtlMs))
    (hq : txCount a = some n) :
    isWalletFresh txCount now cache a
      = ⟨decide (n ≤ 2), jsMapSet cache (jsToLower a) ⟨decide (n ≤ 2), now⟩, 1⟩ := by
  simp only [isWalletFresh]
  cases hg : jsMapGet cache (jsToLower a) with
  | none => rw [hq]
  | some r =>
      dsimp only
      rw [if_neg (hnc r hg), hq]

theorem isWalletFresh_cacheHit (txCount : String → Option Nat)
    (cache : List (String × WalletRecord)) (a : String) (now : Int)
    (r : WalletRecord) (hg : jsMapGet cache (jsToLower a) = some r)
    (ht : now - r.checkedAt < walletCacheTtlMs) :
    isWalletFresh txCount now cache a = ⟨r.isFresh, cache, 0⟩ := by
  simp only [isWalletFresh]
  rw [hg]
  dsimp only
  rw [if_pos ht]

theorem processParticipant_fail (resolve : String → Option MarketInfo)
    (thr : Nat) (now : Int) (s : SysState) (w aid : String) (amt : Nat)
    (tx : String)
    (hsc : ∀ ad r, jsMapGet s.walletCache ad = some r →
      ¬(now - r.checkedAt < walletCacheTtlMs)) :
    processParticipant (fun _ => none) resolve thr now s w aid amt tx
      = (s, []) := by
  unfold processParticipant
  split
  · rfl
  · rw [isWalletFresh_fail s.walletCache w now (fun r h => hsc _ r h)]
    rfl

-- ===========================================================================
-- Claims C5, C6, C7, C8
-- ===========================================================================

/-- C5: the expiry sweep executed at time `now` removes exactly the entries
with `timestamp ≤ now - timeWindow` (an entry survives iff it is not that
old), and deletes every outcome key whose bucket is left with zero entries;
in particular a bet recorded at `t = 0` with the 24h window is removed by a
sweep at `t = 24h + 1s` and retained by a sweep at `t = 23h59m`. -/
theorem sweep_removes_exactly_expired (windowMs now : Int)
    (m : List (String × List Bet)) (hkeys : (m.map Prod.fst).Nodup) :
    (∀ oid, jsMapGet (cleanupOldBets windowMs now m) oid
        = (jsMapGet m oid).bind (fun bets =>
            let live := bets.filter
              (fun b => decide (¬ b.timestamp ≤ now - windowMs))
            if live.isEmpty then none else some live))
    ∧ cleanupOldBets timeWindowMs 86401000
        [("x", [⟨"w", 0, "tx", true, 50⟩])] = []
    ∧ cleanupOldBets timeWindowMs 86340000
        [("x", [⟨"w", 0, "tx", true, 50⟩])]
        = [("x", [⟨"w", 0, "tx", true, 50⟩])] := by
  refine ⟨?_, by decide, by decide⟩
  intro oid
  have hfun : (fun b : Bet => decide (¬ b.timestamp ≤ now - windowMs))
      = (fun b : Bet => decide (now - windowMs < b.timestamp)) := by
    funext b
    exact decide_eq_decide.mpr (by omega)
  rw [hfun]
  exact cleanupOldBets_get windowMs now m hkeys oid

theorem sweep_removes_exactly_expired_witness :
    jsMapGet (cleanupOldBets 1000 5000
      [("x", [⟨"w", 4200, "t1", true, 1⟩, ⟨"v", 3999, "t2", true, 2⟩])]) "x"
      = some [⟨"w", 4200, "t1", true, 1⟩] := by
  have h := (sweep_removes_exactly_expired 1000 5000
      [("x", [⟨"w", 4200, "t1", true, 1⟩, ⟨"v", 3999, "t2", true, 2⟩])]
      (by decide)).1 "x"
  rw [h]
  decide

/-- C6: for every ledger state and fixed `now`, sweeping twice in succession
with no intervening bet yields the same ledger as sweeping once. -/
theorem sweep_idempotent (windowMs now : Int) (m : List (String × List Bet)) :
    cleanupOldBets windowMs now (cleanupOldBets windowMs now m)
      = cleanupOldBets windowMs now m := by
  induction m with
  | nil => rfl
  | cons p m ih =>
    unfold cleanupOldBets at ih ⊢
    cases hce : cleanupEntry (now - windowMs) p with
    | none =>
        rw [List.filterMap_cons_none hce]
        exact ih
    | some q =>
        rw [List.filterMap_cons_some hce]
        have hq := (cleanupEntry_some _ _ _ hce).1
        have hemp := (cleanupEntry_some _ _ _ hce).2
        have hfilt : (p.2.filter
              (fun bet => decide (now - windowMs < bet.timestamp))).filter
            (fun bet => decide (now - windowMs < bet.timestamp))
            = p.2.filter (fun bet => decide (now - windowMs < bet.timestamp)) :=
          List.filter_eq_self.mpr (fun b hb => (List.mem_filter.mp hb).2)
        have hq2 : cleanupEntry (now - windowMs) q = some q := by
          rw [hq]
          simp only [cleanupEntry]
          rw [hfilt, if_neg (by simp [hemp])]
        rw [List.filterMap_cons_some hq2, ih]

/-- C7: `isWalletFresh` never throws to its caller: when the upstream
transaction-count lookup fails (and no valid cache entry short-circuits it),
it returns `false` ("not fresh") and leaves the cache untouched, and
`processTrade` under an always-failing provider still completes normally —
the trade is counted and nothing else changes. -/
theorem isFresh_failure_returns_false
    (cache : List (String × WalletRecord)) (a : String) (now : Int)
    (resolve : String → Option MarketInfo) (thr : Nat) (s : SysState)
    (ev : TradeEvent)
    (hnc : ∀ r, jsMapGet cache (jsToLower a) = some r →
      ¬(now - r.checkedAt < walletCacheTtlMs))
    (hsc : ∀ ad r, jsMapGet s.walletCache ad = some r →
      ¬(now - r.checkedAt < walletCacheTtlMs)) :
    isWalletFresh (fun _ => none) now cache a = ⟨false, cache, 1⟩
    ∧ processTrade (fun _ => none) resolve thr now s ev
        = ({ s with totalTrades := s.totalTrades + 1 }, []) := by
  refine ⟨isWalletFresh_fail cache a now hnc, ?_⟩
  have hp1 := processParticipant_fail resolve thr now
    { s with totalTrades := s.totalTrades + 1 } ev.maker ev.makerAssetId
    ev.makerAmountFilled ev.transactionHash (fun ad r h => hsc ad r h)
  have hp2 := processParticipant_fail resolve thr now
    { s with totalTrades := s.totalTrades + 1 } ev.taker ev.takerAssetId
    ev.takerAmountFilled ev.transactionHash (fun ad r h => hsc ad r h)
  simp [processTrade, hp1, hp2]

theorem isFresh_failure_returns_false_witness :
    isWalletFresh (fun _ => none) 0 [] "0xAB" = ⟨false, [], 1⟩
    ∧ processTrade (fun _ => none) (fun _ => none) 10 0 initState
        ⟨"0xAB", "0xCD", "t1", "t2", 5, 5, "h"⟩
      = (⟨[], [], [], [], 1, 0, 0, 0⟩, []) := by
  have h := isFresh_failure_returns_false [] "0xAB" 0 (fun _ => none) 10
    initState ⟨"0xAB", "0xCD", "t1", "t2", 5, 5, "h"⟩
    (fun r hr => by simp [jsMapGet] at hr)
    (fun ad r hr => by simp [initState, jsMapGet] at hr)
  exact ⟨h.1, h.2⟩

/-- C8: a second `isWalletFresh` call while the cached record satisfies
`now - checkedAt < TTL (1h)` returns the cached verdict without querying the
upstream provider (zero upstream calls, any provider); with no valid cached
record, the wallet is classified fresh iff its transaction count is `≤ 2`,
and the verdict is written to the cache keyed by the lowercased address. -/
theorem isFresh_cache_laws (txCount txCount2 : String → Option Nat)
    (cache : List (String × WalletRecord)) (a : String) (t0 t1 : Int) (n : Nat)
    (hnc : ∀ r, jsMapGet cache (jsToLower a) = some r →
      ¬(t0 - r.checkedAt < walletCacheTtlMs))
    (hq : txCount a = some n) :
    isWalletFresh txCount t0 cache a
      = ⟨decide (n ≤ 2), jsMapSet cache (jsToLower a) ⟨decide (n ≤ 2), t0⟩, 1⟩
    ∧ (t1 - t0 < walletCacheTtlMs →
        isWalletFresh txCount2 t1 (isWalletFresh txCount t0 cache a).cache a
          = ⟨decide (n ≤ 2), (isWalletFresh txCount t0 cache a).cache, 0⟩) := by
  have h1 := isWalletFresh_query txCount cache a t0 n hnc hq
  refine ⟨h1, fun ht => ?_⟩
  rw [h1]
  exact isWalletFresh_cacheHit txCount2 _ a t1 ⟨decide (n ≤ 2), t0⟩
    (jsMapGet_set_self _ _ _) ht

theorem isFresh_cache_laws_witness :
    isWalletFresh (fun _ => some 1) 0 [] "0xAB"
      = ⟨true, [("0xab", ⟨true, 0⟩)], 1⟩
    ∧ isWalletFresh (fun _ => none) 100
        (isWalletFresh (fun _ => some 1) 0 [] "0xAB").cache "0xAB"
      = ⟨true, (isWalletFresh (fun _ => some 1) 0 [] "0xAB").cache, 0⟩ := by
  have h := isFresh_cache_laws (fun _ => some 1) (fun _ => none) [] "0xAB"
    0 100 1 (fun r hr => by simp [jsMapGet] at hr) rfl
  refine ⟨?_, h.2 (by decide)⟩
  rw [h.1]
  decide

theorem any_lower_eq_false (B : List Bet) (w : String)
    (hnew : jsToLower w ∉ B.map (fun b => jsToLower b.wallet)) :
    B.any (fun bet => jsToLower bet.wallet == jsToLower w) = false := by
  rw [List.any_eq_false]
  intro b hb hbeq
  exact hnew (List.mem_map.mpr ⟨b, hb, eq_of_beq hbeq⟩)

theorem any_lower_eq_true (B : List Bet) (w : String)
    (hmem : jsToLower w ∈ B.map (fun b => jsToLower b.wallet)) :
    B.any (fun bet => jsToLower bet.wallet == jsToLower w) = true := by
  rw [List.any_eq_true]
  rcases List.mem_map.mp hmem with ⟨b, hb, hbw⟩
  exact ⟨b, hb, by simp [hbw]⟩

theorem recordFreshBet_untracked (resolve : String → Option MarketInfo)
    (thr : Nat) (now : Int) (s : SysState) (oid w tx : String) (amt : Nat)
    (B : List Bet) (hB : (jsMapGet s.betsByOutcome oid).getD [] = B)
    (hnew : jsToLower w ∉ B.map (fun b => jsToLower b.wallet)) :
    recordFreshBet resolve thr now s oid w tx amt
      = checkAndAlert resolve thr now
          { s with freshWalletsDetected := s.freshWalletsDetected + 1,
                   betsByOutcome := (jsMapSet s.betsByOutcome oid
                     (B ++ [⟨w, now, tx, true, (amt : ℚ) / 1000000⟩])) } oid := by
  simp only [recordFreshBet]
  rw [hB, if_neg (by simp [any_lower_eq_false B w hnew])]

theorem recordFreshBet_tracked (resolve : String → Option MarketInfo)
    (thr : Nat) (now : Int) (s : SysState) (oid w tx : String) (amt : Nat)
    (B : List Bet) (hB : (jsMapGet s.betsByOutcome oid).getD [] = B)
    (hmem : jsToLower w ∈ B.map (fun b => jsToLower b.wallet)) :
    recordFreshBet resolve thr now s oid w tx amt
      = ({ s with freshWalletsDetected := s.freshWalletsDetected + 1,
                  betsByOutcome := (jsMapSet s.betsByOutcome oid
                    (accumulateFirst B w ((amt : ℚ) / 1000000))) }, []) := by
  simp only [recordFreshBet]
  rw [hB, if_pos (by simp [any_lower_eq_true B w hmem])]

theorem processParticipant_zero (txCount : String → Option Nat)
    (resolve : String → Option MarketInfo) (thr : Nat) (now : Int)
    (s : SysState) (aid : String) (amt : Nat) (tx : String) :
    processParticipant txCount resolve thr now s zeroAddress aid amt tx
      = (s, []) := by
  unfold processParticipant
  rw [if_pos (by simp)]

/-- C10: trade processing is not idempotent under event re-delivery:
delivering the same `OrderFilled` event (same transaction hash) a second
time for a fresh wallet already tracked on that outcome accumulates the
amount into the entry again — the ledger deduplicates by wallet address
only, never by transaction hash, so re-scanning already-processed blocks
double-counts amounts. -/
theorem trade_replay_double_counts (oid oid2 w tx : String) (amt : Nat)
    (resolve : String → Option MarketInfo) (thr : Nat) (now : Int)
    (hw : w ≠ zeroAddress) :
    jsMapGet ((processTrade (fun _ => some 0) resolve thr now
        (processTrade (fun _ => some 0) resolve thr now initState
          ⟨w, zeroAddress, oid, oid2, amt, 0, tx⟩).1
        ⟨w, zeroAddress, oid, oid2, amt, 0, tx⟩).1.betsByOutcome) oid
      = some [⟨w, now, tx, true, 2 * ((amt : ℚ) / 1000000)⟩] := by
  have hwb : (w == zeroAddress) = false := beq_eq_false_iff_ne.mpr hw
  set q : ℚ := (amt : ℚ) / 1000000 with hq
  set bet1 : Bet := ⟨w, now, tx, true, q⟩ with hbet1
  set cw : List (String × WalletRecord) := [(jsToLower w, ⟨true, now⟩)]
    with hcw
  set s0 : SysState := ⟨[], [], [], [], 1, 0, 0, 0⟩ with hs0
  -- first delivery: the wallet is fresh (tx count 0) and untracked, so the
  -- bet is appended and detection runs
  have hfresh1 : isWalletFresh (fun _ => some 0) now ([] : List (String × WalletRecord)) w
      = ⟨true, cw, 1⟩ := by
    have h := isWalletFresh_query (fun _ => some 0)
      ([] : List (String × WalletRecord)) w now 0
      (fun r hr => by simp [jsMapGet] at hr) rfl
    simpa [jsMapSet, hcw] using h
  set s1p : SysState := ⟨[(oid, [bet1])], cw, [], [], 1, 1, 0, 0⟩ with hs1p
  have hm1 : processParticipant (fun _ => some 0) resolve thr now s0 w oid amt tx
      = checkAndAlert resolve thr now s1p oid := by
    unfold processParticipant
    rw [if_neg (by simp [hwb])]
    rw [show s0.walletCache = ([] : List (String × WalletRecord)) from rfl,
      hfresh1]
    dsimp only
    rw [recordFreshBet_untracked resolve thr now _ oid w tx amt []
      (by simp [jsMapGet]) (by simp)]
    rfl
  have ht1 : (processTrade (fun _ => some 0) resolve thr now initState
      ⟨w, zeroAddress, oid, oid2, amt, 0, tx⟩).1
      = (checkAndAlert resolve thr now s1p oid).1 := by
    simp only [processTrade]
    rw [show ({ initState with totalTrades := initState.totalTrades + 1 } : SysState)
        = s0 from rfl]
    rw [hm1, processParticipant_zero]
  set s1 : SysState := (checkAndAlert resolve thr now s1p oid).1 with hs1
  have hb1 : s1.betsByOutcome = [(oid, [bet1])] := by
    rw [hs1, checkAndAlert_fst_betsByOutcome]
  have hc1 : s1.walletCache = cw := by
    rw [hs1, checkAndAlert_fst_walletCache]
  -- second delivery: cache hit says fresh, the wallet is already tracked,
  -- so the amount is accumulated into the existing entry
  have hfresh2 : isWalletFresh (fun _ => some 0) now cw w = ⟨true, cw, 0⟩ := by
    have h := isWalletFresh_cacheHit (fun _ => some 0) cw w now ⟨true, now⟩
      (by simp [jsMapGet, hcw]) (by simp [walletCacheTtlMs])
    simpa using h
  have hm2 : processParticipant (fun _ => some 0) resolve thr now
      { s1 with totalTrades := s1.totalTrades + 1 } w oid amt tx
      = ({ s1 with
            totalTrades := s1.totalTrades + 1
            walletCache := cw
            freshWalletsDetected := s1.freshWalletsDetected + 1
            betsByOutcome := [(oid, [⟨w, now, tx, true, q + q⟩])] }, []) := by
    unfold processParticipant
    rw [if_neg (by simp [hwb])]
    rw [show ({ s1 with totalTrades := s1.totalTrades + 1 } : SysState).walletCache
        = cw from by simp [hc1], hfresh2]
    dsimp only
    rw [recordFreshBet_tracked resolve thr now _ oid w tx amt [bet1]
      (by simp [hb1, jsMapGet]) (by simp [hbet1])]
    have hacc : accumulateFirst [bet1] w q = [⟨w, now, tx, true, q + q⟩] := by
      simp [accumulateFirst, hbet1]
    have hset : jsMapSet [(oid, [bet1])] oid [⟨w, now, tx, true, q + q⟩]
        = [(oid, [⟨w, now, tx, true, q + q⟩])] := by
      simp [jsMapSet]
    simp only [hacc]
    rw [show ({ s1 with totalTrades := s1.totalTrades + 1, walletCache := cw }
        : SysState).betsByOutcome = [(oid, [bet1])] from by simp [hb1]]
    rw [hset]
    simp
  have ht2 : (processTrade (fun _ => some 0) resolve thr now s1
      ⟨w, zeroAddress, oid, oid2, amt, 0, tx⟩).1
      = { s1 with
            totalTrades := s1.totalTrades + 1
            walletCache := cw
            freshWalletsDetected := s1.freshWalletsDetected + 1
            betsByOutcome := [(oid, [⟨w, now, tx, true, q + q⟩])] } := by
    simp only [processTrade]
    rw [hm2, processParticipant_zero]
  rw [ht1, ht2]
  have : q + q = 2 * q := by ring
  simp [jsMapGet, this]

theorem trade_replay_double_counts_witness :
    jsMapGet ((processTrade (fun _ => some 0) (fun _ => none) 10 0
        (processTrade (fun _ => some 0) (fun _ => none) 10 0 initState
          ⟨"0xAB", zeroAddress, "tok", "tok2", 1000000, 0, "0xT"⟩).1
        ⟨"0xAB", zeroAddress, "tok", "tok2", 1000000, 0, "0xT"⟩).1.betsByOutcome)
      "tok"
      = some [⟨"0xAB", 0, "0xT", true,
          2 * (((1000000 : Nat) : ℚ) / 1000000)⟩] :=
  trade_replay_double_counts "tok" "tok2" "0xAB" "0xT" 1000000
    (fun _ => none) 10 0 (by decide)

/-- C3: the bet ledger never holds two live entries for the same wallet
(compared case-insensitively): recording preserves wallet-distinctness of
the bucket and touches no other outcome; a bet from an already-tracked
wallet accumulates its amount into the existing entry — no timestamp
advances, nothing is appended, nothing is emitted; a first bet for a
wallet+outcome pair is appended at the end (arrival order) and hands the
state to `checkAndAlert`, i.e. detection is triggered. -/
theorem ledger_record_laws (resolve : String → Option MarketInfo) (thr : Nat)
    (now : Int) (s : SysState) (oid w tx : String) (amt : Nat) (B : List Bet)
    (hB : (jsMapGet s.betsByOutcome oid).getD [] = B) :
    (DistinctWallets B →
      DistinctWallets ((jsMapGet (recordFreshBet resolve thr now s oid w tx
        amt).1.betsByOutcome oid).getD []))
    ∧ (∀ o, o ≠ oid →
        jsMapGet (recordFreshBet resolve thr now s oid w tx amt).1.betsByOutcome o
          = jsMapGet s.betsByOutcome o)
    ∧ (jsToLower w ∈ B.map (fun b => jsToLower b.wallet) →
        ((jsMapGet (recordFreshBet resolve thr now s oid w tx amt).1.betsByOutcome
            oid).getD []).map (fun b => (b.wallet, b.timestamp, b.txHash, b.isFresh))
          = B.map (fun b => (b.wallet, b.timestamp, b.txHash, b.isFresh))
        ∧ sumAmounts ((jsMapGet (recordFreshBet resolve thr now s oid w tx
            amt).1.betsByOutcome oid).getD [])
            = sumAmounts B + (amt : ℚ) / 1000000
        ∧ (recordFreshBet resolve thr now s oid w tx amt).2 = [])
    ∧ (jsToLower w ∉ B.map (fun b => jsToLower b.wallet) →
        ((jsMapGet (recordFreshBet resolve thr now s oid w tx amt).1.betsByOutcome
            oid).getD [])
          = B ++ [⟨w, now, tx, true, (amt : ℚ) / 1000000⟩]
        ∧ recordFreshBet resolve thr now s oid w tx amt
            = checkAndAlert resolve thr now
                { s with freshWalletsDetected := s.freshWalletsDetected + 1
                         betsByOutcome := (jsMapSet s.betsByOutcome oid
                           (B ++ [⟨w, now, tx, true, (amt : ℚ) / 1000000⟩])) }
                oid) := by
  by_cases hmem : jsToLower w ∈ B.map (fun b => jsToLower b.wallet)
  · have hrec := recordFreshBet_tracked resolve thr now s oid w tx amt B hB hmem
    have hB' : (jsMapGet (recordFreshBet resolve thr now s oid w tx
        amt).1.betsByOutcome oid).getD []
        = accumulateFirst B w ((amt : ℚ) / 1000000) := by
      rw [hrec]
      dsimp only
      rw [jsMapGet_set_self]
      rfl
    refine ⟨?_, ?_, fun _ => ⟨?_, ?_, ?_⟩, fun hnot => absurd hmem hnot⟩
    · intro hd
      rw [hB']
      unfold DistinctWallets at hd ⊢
      rw [accumulateFirst_map_wallet]
      exact hd
    · intro o ho
      rw [hrec]
      dsimp only
      exact jsMapGet_set_ne _ _ _ _ ho
    · rw [hB', accumulateFirst_fields]
    · rw [hB', accumulateFirst_sum B w _ hmem]
    · rw [hrec]
  · have hrec := recordFreshBet_untracked resolve thr now s oid w tx amt B hB hmem
    have hB' : (jsMapGet (recordFreshBet resolve thr now s oid w tx
        amt).1.betsByOutcome oid).getD []
        = B ++ [⟨w, now, tx, true, (amt : ℚ) / 1000000⟩] := by
      rw [hrec, checkAndAlert_fst_betsByOutcome]
      dsimp only
      rw [jsMapGet_set_self]
      rfl
    refine ⟨?_, ?_, fun hmem' => absurd hmem' hmem, fun _ => ⟨hB', hrec⟩⟩
    · intro hd
      rw [hB']
      unfold DistinctWallets at hd ⊢
      rw [List.map_append]
      rw [List.nodup_append]
      refine ⟨hd, by simp, ?_⟩
      intro a ha hb
      simp only [List.map_cons, List.map_nil, List.mem_singleton] at hb
      rw [hb] at ha
      exact hmem ha
    · intro o ho
      rw [hrec, checkAndAlert_fst_betsByOutcome]
      dsimp only
      exact jsMapGet_set_ne _ _ _ _ ho

theorem ledger_record_laws_witness :
    ((jsMapGet (recordFreshBet (fun _ => none) 10 7
        ⟨[("tok", [⟨"0xAA", 5, "h1", true, 7⟩])], [], [], [], 0, 0, 0, 0⟩
        "tok" "0xaa" "h2" 1000000).1.betsByOutcome "tok").getD []).map
        (fun b => (b.wallet, b.timestamp, b.txHash, b.isFresh))
      = [("0xAA", (5 : Int), "h1", true)]
    ∧ sumAmounts ((jsMapGet (recordFreshBet (fun _ => none) 10 7
        ⟨[("tok", [⟨"0xAA", 5, "h1", true, 7⟩])], [], [], [], 0, 0, 0, 0⟩
        "tok" "0xaa" "h2" 1000000).1.betsByOutcome "tok").getD [])
      = 8
    ∧ (recordFreshBet (fun _ => none) 10 7
        ⟨[("tok", [⟨"0xAA", 5, "h1", true, 7⟩])], [], [], [], 0, 0, 0, 0⟩
        "tok" "0xaa" "h2" 1000000).2 = [] := by
  have h := ((ledger_record_laws (fun _ => none) 10 7
      ⟨[("tok", [⟨"0xAA", 5, "h1", true, 7⟩])], [], [], [], 0, 0, 0, 0⟩
      "tok" "0xaa" "h2" 1000000 [⟨"0xAA", 5, "h1", true, 7⟩]
      (by decide)).2.2.1 (by decide))
  refine ⟨by rw [h.1]; decide, ?_, h.2.2⟩
  rw [h.2.1]
  norm_num [sumAmounts]

theorem countNewAlerts_append (a b : List SockEvent) :
    countNewAlerts (a ++ b) = countNewAlerts a + countNewAlerts b := by
  unfold countNewAlerts
  exact List.countP_append _ _ _

theorem countAlertUpdates_append (a b : List SockEvent) :
    countAlertUpdates (a ++ b) = countAlertUpdates a + countAlertUpdates b := by
  unfold countAlertUpdates
  exact List.countP_append _ _ _

theorem recordFreshBet_newWallet_step (resolve : String → Option MarketInfo)
    (thr : Nat) (now : Int) (oid w tx : String) (amt : Nat) (s : SysState)
    (B : List Bet)
    (hfilter : shouldFilterMarket (resolve oid) = false)
    (hB : (jsMapGet s.betsByOutcome oid).getD [] = B)
    (hfresh : ∀ b ∈ B, b.isFresh = true)
    (hnew : jsToLower w ∉ B.map (fun b => jsToLower b.wallet))
    (hph : AlertPhase thr oid s B.length) :
    (jsMapGet (recordFreshBet resolve thr now s oid w tx amt).1.betsByOutcome
        oid).getD []
      = B ++ [⟨w, now, tx, true, (amt : ℚ) / 1000000⟩]
    ∧ AlertPhase thr oid (recordFreshBet resolve thr now s oid w tx amt).1
        (B.length + 1)
    ∧ countNewAlerts (recordFreshBet resolve thr now s oid w tx amt).2
        = (if B.length + 1 = thr then 1 else 0)
    ∧ countAlertUpdates (recordFreshBet resolve thr now s oid w tx amt).2
        = (if thr ≤ B.length then 1 else 0) := by
  have hrec := recordFreshBet_untracked resolve thr now s oid w tx amt B hB hnew
  rw [hrec]
  set nb : Bet := ⟨w, now, tx, true, (amt : ℚ) / 1000000⟩ with hnb
  set sP : SysState :=
    { s with freshWalletsDetected := s.freshWalletsDetected + 1,
             betsByOutcome := (jsMapSet s.betsByOutcome oid (B ++ [nb])) }
    with hsP
  have hsPbets : jsMapGet sP.betsByOutcome oid = some (B ++ [nb]) :=
    jsMapGet_set_self _ _ _
  have hfl : (B ++ [nb]).filter (fun b => b.isFresh) = B ++ [nb] :=
    filter_isFresh_of_all _ (by
      intro b hb
      rcases List.mem_append.mp hb with h | h
      · exact hfresh b h
      · simp only [List.mem_singleton] at h
        rw [h, hnb])
  rcases hph with ⟨hk, hna, hal⟩ | ⟨hk, hcont, a, hal, haoid⟩
  · -- not yet alerted
    have hnomem : oid ∉ s.alertedOutcomes := by simpa using hna
    have halP : sP.alerts = [] := hal
    by_cases hle : thr ≤ B.length + 1
    · -- this bet reaches the threshold: the alert is created now
      have heq : B.length + 1 = thr := by omega
      have hca : checkAndAlert resolve thr now sP oid
          = ({ sP with
                alertedOutcomes := oid :: sP.alertedOutcomes
                alertsTriggered := sP.alertsTriggered + 1
                alerts := [⟨now, oid,
                  (match (resolve oid).bind (fun mi => mi.question) with
                   | some q => if q.isEmpty then "Unknown Market" else q
                   | none => "Unknown Market"),
                  (match (resolve oid).bind (fun mi => mi.outcome) with
                   | some o => if o.isEmpty then "Unknown" else o
                   | none => "Unknown"),
                  (resolve oid).bind (fun mi => mi.price),
                  (resolve oid).bind (fun mi => mi.slug),
                  (resolve oid).bind (fun mi => mi.image),
                  (match (resolve oid).bind (fun mi => mi.slug) with
                   | some sl => some ("https://polymarket.com/event/" ++ sl)
                   | none =>
                     match (resolve oid).bind (fun mi => mi.conditionId) with
                     | some cid => some ("https://polymarket.com/market/" ++ cid)
                     | none => none),
                  (B ++ [nb]).length, sumAmounts (B ++ [nb]),
                  (((B ++ [nb]).head?).getD default).timestamp,
                  TimeVal.asMillis ((((B ++ [nb]).getLast?).getD default).timestamp),
                  (((B ++ [nb]).head?).getD default).txHash,
                  (B ++ [nb]).map (fun b => ⟨b.wallet, b.txHash, b.timestamp, b.amount⟩),
                  now⟩] },
             [SockEvent.newAlert ⟨now, oid,
                  (match (resolve oid).bind (fun mi => mi.question) with
                   | some q => if q.isEmpty then "Unknown Market" else q
                   | none => "Unknown Market"),
                  (match (resolve oid).bind (fun mi => mi.outcome) with
                   | some o => if o.isEmpty then "Unknown" else o
                   | none => "Unknown"),
                  (resolve oid).bind (fun mi => mi.price),
                  (resolve oid).bind (fun mi => mi.slug),
                  (resolve oid).bind (fun mi => mi.image),
                  (match (resolve oid).bind (fun mi => mi.slug) with
                   | some sl => some ("https://polymarket.com/event/" ++ sl)
                   | none =>
                     match (resolve oid).bind (fun mi => mi.conditionId) with
                     | some cid => some ("https://polymarket.com/market/" ++ cid)
                     | none => none),
                  (B ++ [nb]).length, sumAmounts (B ++ [nb]),
                  (((B ++ [nb]).head?).getD default).timestamp,
                  TimeVal.asMillis ((((B ++ [nb]).getLast?).getD default).timestamp),
                  (((B ++ [nb]).head?).getD default).txHash,
                  (B ++ [nb]).map (fun b => ⟨b.wallet, b.txHash, b.timestamp, b.amount⟩),
                  now⟩, SockEvent.statsEmit]) := by
        unfold checkAndAlert
        rw [if_neg (by simp [hnomem])]
        dsimp only
        rw [hsPbets]
        simp only [Option.getD_some, hfl]
        rw [if_pos (by simpa using hle), if_neg (by simp [hfilter]), halP]
        rw [if_neg (by simp)]
      rw [hca]
      refine ⟨hsPbets ▸ by simp, ?_, ?_, ?_⟩
      · right
        refine ⟨by omega, by simp, ⟨_, rfl, rfl⟩⟩
      · simp [countNewAlerts, heq, List.countP_cons]
      · have hnle : ¬ thr ≤ B.length := by omega
        simp [countAlertUpdates, hnle, List.countP_cons]
    · -- still below the threshold: no event, nothing marked
      have hca : checkAndAlert resolve thr now sP oid = (sP, []) := by
        unfold checkAndAlert
        rw [if_neg (by simp [hnomem])]
        dsimp only
        rw [hsPbets]
        simp only [Option.getD_some, hfl]
        rw [if_neg (by simpa using hle)]
      rw [hca]
      refine ⟨hsPbets ▸ by simp, ?_, ?_, ?_⟩
      · left
        exact ⟨by omega, by simpa using hnomem, halP⟩
      · have hne : ¬ (B.length + 1 = thr) := by omega
        simp [countNewAlerts, hne]
      · have hnle : ¬ thr ≤ B.length := by omega
        simp [countAlertUpdates, hnle]
  · -- already alerted with a live alert record: update in place
    have hmem : oid ∈ s.alertedOutcomes := by simpa using hcont
    have halP : sP.alerts = [a] := hal
    have hfind : sP.alerts.find? (fun x => x.outcomeId == oid) = some a := by
      rw [halP]
      exact List.find?_cons_of_pos _ (by simp [haoid])
    have hca : checkAndAlert resolve thr now sP oid
        = ({ sP with alerts := (replaceFirstAlert sP.alerts oid
              { a with freshWallets := (B ++ [nb]).length
                       totalAmount := sumAmounts (B ++ [nb])
                       latestBet := TimeVal.asIso now }) },
           [SockEvent.alertUpdate
              { a with freshWallets := (B ++ [nb]).length
                       totalAmount := sumAmounts (B ++ [nb])
                       latestBet := TimeVal.asIso now }]) := by
      unfold checkAndAlert
      rw [if_pos hcont]
      rw [hfind]
      dsimp only
      rw [hsPbets]
      simp only [Option.getD_some, hfl]
    rw [hca]
    refine ⟨hsPbets ▸ by simp, ?_, ?_, ?_⟩
    · right
      refine ⟨by omega, hcont, ?_⟩
      have hrep : replaceFirstAlert sP.alerts oid
          { a with freshWallets := (B ++ [nb]).length
                   totalAmount := sumAmounts (B ++ [nb])
                   latestBet := TimeVal.asIso now }
          = [{ a with freshWallets := (B ++ [nb]).length
                      totalAmount := sumAmounts (B ++ [nb])
                      latestBet := TimeVal.asIso now }] := by
        rw [halP]
        exact replaceFirstAlert_head a [] oid _ haoid
      exact ⟨{ a with
                freshWallets := (B ++ [nb]).length
                totalAmount := sumAmounts (B ++ [nb])
                latestBet := TimeVal.asIso now }, hrep, haoid⟩
    · have hne : ¬ (B.length + 1 = thr) := by omega
      simp [countNewAlerts, hne, List.countP_cons]
    · have hle : thr ≤ B.length := hk
      simp [countAlertUpdates, hle, List.countP_cons]

theorem runFreshBets_counts (resolve : String → Option MarketInfo) (thr : Nat)
    (now : Int) (oid : String)
    (hfilter : shouldFilterMarket (resolve oid) = false) :
    ∀ (steps : List (String × String × Nat)) (s : SysState) (B : List Bet),
      (jsMapGet s.betsByOutcome oid).getD [] = B →
      (∀ b ∈ B, b.isFresh = true) →
      AlertPhase thr oid s B.length →
      ((B.map (fun b => jsToLower b.wallet))
        ++ steps.map (fun p => jsToLower p.1)).Nodup →
      countNewAlerts (runFreshBets resolve thr now oid steps s).2
          = (if B.length < thr ∧ thr ≤ B.length + steps.length then 1 else 0)
      ∧ countAlertUpdates (runFreshBets resolve thr now oid steps s).2
          = (B.length + steps.length) - max B.length thr := by
  intro steps
  induction steps with
  | nil =>
    intro s B hB hfresh hph hnd
    constructor
    · simp only [runFreshBets, List.length_nil, Nat.add_zero]
      rw [if_neg (by omega)]
      simp [countNewAlerts]
    · simp only [runFreshBets, List.length_nil, Nat.add_zero,
        countAlertUpdates, List.countP_nil]
      omega
  | cons st rest ih =>
    obtain ⟨w, tx, amt⟩ := st
    intro s B hB hfresh hph hnd
    have hnew : jsToLower w ∉ B.map (fun b => jsToLower b.wallet) := by
      intro hmem
      exact (List.disjoint_of_nodup_append hnd) hmem
        (by simp)
    obtain ⟨hB', hph', hcn, hcu⟩ := recordFreshBet_newWallet_step resolve thr
      now oid w tx amt s B hfilter hB hfresh hnew hph
    have hfresh' : ∀ b ∈ B ++ [(⟨w, now, tx, true, (amt : ℚ) / 1000000⟩ : Bet)],
        b.isFresh = true := by
      intro b hb
      rcases List.mem_append.mp hb with h | h
      · exact hfresh b h
      · simp only [List.mem_singleton] at h
        rw [h]
    have hph'' : AlertPhase thr oid
        (recordFreshBet resolve thr now s oid w tx amt).1
        (B ++ [(⟨w, now, tx, true, (amt : ℚ) / 1000000⟩ : Bet)]).length := by
      simpa using hph'
    have hnd2 : (((B ++ [(⟨w, now, tx, true, (amt : ℚ) / 1000000⟩ : Bet)]).map
          (fun b => jsToLower b.wallet))
        ++ rest.map (fun p => jsToLower p.1)).Nodup := by
      rw [List.map_append]
      simpa [List.append_assoc] using hnd
    obtain ⟨ih1, ih2⟩ := ih (recordFreshBet resolve thr now s oid w tx amt).1
      (B ++ [(⟨w, now, tx, true, (amt : ℚ) / 1000000⟩ : Bet)]) hB' hfresh'
      hph'' hnd2
    constructor
    · simp only [runFreshBets]
      rw [countNewAlerts_append, hcn, ih1]
      simp only [List.length_append, List.length_cons, List.length_nil]
      split_ifs <;> omega
    · simp only [runFreshBets]
      rw [countAlertUpdates_append, hcu, ih2]
      simp only [List.length_append, List.length_cons, List.length_nil]
      split_ifs <;> omega

/-- C1: feeding N ≥ threshold fresh new-wallet bets (pairwise-distinct
wallets, case-insensitively) on one outcome from a clean start makes
`checkAndAlert` emit exactly one `newAlert` event, and every subsequent
new-wallet bet on the already-alerted, non-suppressed outcome emits only
`alertUpdate` events (N − threshold of them in total) — never a second
`newAlert`. -/
theorem alert_created_exactly_once (resolve : String → Option MarketInfo)
    (thr : Nat) (now : Int) (oid : String)
    (steps : List (String × String × Nat))
    (hthr : 1 ≤ thr) (hN : thr ≤ steps.length)
    (hfilter : shouldFilterMarket (resolve oid) = false)
    (hdistinct : (steps.map (fun p => jsToLower p.1)).Nodup) :
    countNewAlerts (runFreshBets resolve thr now oid steps initState).2 = 1
    ∧ countAlertUpdates (runFreshBets resolve thr now oid steps initState).2
        = steps.length - thr := by
  have hph0 : AlertPhase thr oid initState ([] : List Bet).length :=
    Or.inl ⟨by simp; omega, rfl, rfl⟩
  obtain ⟨h1, h2⟩ := runFreshBets_counts resolve thr now oid hfilter steps
    initState [] (by simp [initState, jsMapGet]) (by simp) hph0
    (by simpa using hdistinct)
  simp only [List.length_nil, Nat.zero_add] at h1 h2
  constructor
  · rw [h1, if_pos ⟨by omega, hN⟩]
  · rw [h2]
    simp

theorem alert_created_exactly_once_witness :
    countNewAlerts (runFreshBets (fun _ => none) 2 0 "tok"
      [("0xA", "t1", 1000000), ("0xB", "t2", 2000000), ("0xC", "t3", 3000000)]
      initState).2 = 1
    ∧ countAlertUpdates (runFreshBets (fun _ => none) 2 0 "tok"
      [("0xA", "t1", 1000000), ("0xB", "t2", 2000000), ("0xC", "t3", 3000000)]
      initState).2 = 1 := by
  have h := alert_created_exactly_once (fun _ => none) 2 0 "tok"
    [("0xA", "t1", 1000000), ("0xB", "t2", 2000000), ("0xC", "t3", 3000000)]
    (by norm_num) (by norm_num) rfl (by decide)
  exact ⟨h.1, by simpa using h.2⟩

theorem checkAndAlert_filtered_no_oid (resolve : String → Option MarketInfo)
    (thr : Nat) (now : Int) (oid aid : String) (s : SysState)
    (hfilter : shouldFilterMarket (resolve oid) = true)
    (hinv : NoAlertFor oid s) :
    NoAlertFor oid (checkAndAlert resolve thr now s aid).1
    ∧ ∀ e ∈ (checkAndAlert resolve thr now s aid).2,
        eventOutcome e ≠ some oid := by
  by_cases haid : aid = oid
  · subst haid
    have hfind : s.alerts.find? (fun a => a.outcomeId == aid) = none :=
      List.find?_eq_none.mpr (fun a ha hbeq => hinv a ha (eq_of_beq hbeq))
    unfold checkAndAlert
    split
    · rw [hfind]
      exact ⟨hinv, by simp⟩
    · dsimp only
      rw [if_pos hfilter]
      split
      · exact ⟨hinv, by simp⟩
      · exact ⟨hinv, by simp⟩
  · unfold checkAndAlert
    split
    · cases hf : s.alerts.find? (fun a => a.outcomeId == aid) with
      | none =>
          exact ⟨hinv, by simp⟩
      | some ex =>
          have hex : ex.outcomeId = aid := by
            have := List.find?_some hf
            exact eq_of_beq this
          constructor
          · intro x hx
            rcases mem_replaceFirstAlert _ _ _ x hx with h | h
            · rw [h]
              simpa [hex] using haid
            · exact hinv x h
          · intro e he
            simp only [List.mem_singleton] at he
            rw [he]
            simp only [eventOutcome]
            intro hcontra
            exact haid (by simpa [hex] using hcontra)
    · dsimp only
      split
      · split
        · exact ⟨hinv, by simp⟩
        · rename_i hnf
          suffices h : ∀ A : Alert, A.outcomeId = aid →
              NoAlertFor oid
                (({ s with
                    alertedOutcomes := aid :: s.alertedOutcomes
                    alertsTriggered := s.alertsTriggered + 1
                    alerts := (if 50 < (A :: s.alerts).length then
                      (A :: s.alerts).dropLast else A :: s.alerts) },
                  ([SockEvent.newAlert A, SockEvent.statsEmit] :
                    List SockEvent))).1
              ∧ ∀ e ∈ (({ s with
                    alertedOutcomes := aid :: s.alertedOutcomes
                    alertsTriggered := s.alertsTriggered + 1
                    alerts := (if 50 < (A :: s.alerts).length then
                      (A :: s.alerts).dropLast else A :: s.alerts) },
                  ([SockEvent.newAlert A, SockEvent.statsEmit] :
                    List SockEvent))).2,
                  eventOutcome e ≠ some oid by
            exact h _ rfl
          intro A hA
          constructor
          · intro x hx
            have hx' : x ∈ A :: s.alerts := by
              by_cases hlen : 50 < (A :: s.alerts).length
              · rw [if_pos hlen] at hx
                exact (List.dropLast_sublist _).subset hx
              · rw [if_neg hlen] at hx
                exact hx
            rcases List.mem_cons.mp hx' with h | h
            · rw [h, hA]
              exact haid
            · exact hinv x h
          · intro e he
            rcases List.mem_cons.mp he with h | h
            · rw [h]
              simp only [eventOutcome]
              intro hcontra
              have := Option.some.inj hcontra
              rw [hA] at this
              exact haid this
            · simp only [List.mem_singleton] at h
              rw [h]
              simp [eventOutcome]
      · exact ⟨hinv, by simp⟩

theorem recordFreshBet_no_oid_events (resolve : String → Option MarketInfo)
    (thr : Nat) (now : Int) (oid aid w tx : String) (amt : Nat) (s : SysState)
    (hfilter : shouldFilterMarket (resolve oid) = true)
    (hinv : NoAlertFor oid s) :
    NoAlertFor oid (recordFreshBet resolve thr now s aid w tx amt).1
    ∧ ∀ e ∈ (recordFreshBet resolve thr now s aid w tx amt).2,
        eventOutcome e ≠ some oid := by
  simp only [recordFreshBet]
  split
  · exact ⟨hinv, by simp⟩
  · exact checkAndAlert_filtered_no_oid resolve thr now oid aid _ hfilter hinv

theorem runBets_no_oid_events (resolve : String → Option MarketInfo)
    (thr : Nat) (now : Int) (oid : String)
    (hfilter : shouldFilterMarket (resolve oid) = true) :
    ∀ (steps : List (String × String × String × Nat)) (s : SysState),
      NoAlertFor oid s →
      NoAlertFor oid (runBets resolve thr now steps s).1
      ∧ countEventsFor oid (runBets resolve thr now steps s).2 = 0 := by
  intro steps
  induction steps with
  | nil => exact fun s hinv => ⟨hinv, rfl⟩
  | cons st rest ih =>
    obtain ⟨aid, w, tx, amt⟩ := st
    intro s hinv
    obtain ⟨h1, h2⟩ := recordFreshBet_no_oid_events resolve thr now oid aid w
      tx amt s hfilter hinv
    obtain ⟨h3, h4⟩ := ih (recordFreshBet resolve thr now s aid w tx amt).1 h1
    refine ⟨h3, ?_⟩
    simp only [runBets]
    unfold countEventsFor at h4 ⊢
    rw [List.countP_append, h4]
    have hz : (recordFreshBet resolve thr now s aid w tx amt).2.countP
        (fun e => eventOutcome e == some oid) = 0 := by
      rw [List.countP_eq_zero]
      intro e he
      simpa using h2 e he
    rw [hz]

/-- C2: an outcome whose resolved market question matches one of the
content-filter patterns never gets a `newAlert` — even when the fresh-wallet
count reaches or exceeds the threshold — and once suppressed it is
permanently excluded: over any sequence of fresh bets from a clean start, no
`newAlert` or `alertUpdate` event for that outcome is ever emitted. -/
theorem filtered_outcome_never_alerts (resolve : String → Option MarketInfo)
    (thr : Nat) (now : Int) (oid : String)
    (steps : List (String × String × String × Nat))
    (hfilter : shouldFilterMarket (resolve oid) = true) :
    countEventsFor oid (runBets resolve thr now steps initState).2 = 0 :=
  (runBets_no_oid_events resolve thr now oid hfilter steps initState
    (fun a ha => absurd ha (List.not_mem_nil a))).2

theorem filtered_outcome_never_alerts_witness :
    countEventsFor "tok" (runBets
      (fun _ => some ⟨some "Bitcoin up or down in next 5 minutes?",
        none, none, none, none, none⟩) 2 0
      [("tok", "0xA", "t1", 1000000), ("tok", "0xB", "t2", 1000000),
       ("tok", "0xC", "t3", 1000000)] initState).2 = 0 :=
  filtered_outcome_never_alerts
    (fun _ => some ⟨some "Bitcoin up or down in next 5 minutes?",
      none, none, none, none, none⟩) 2 0 "tok"
    [("tok", "0xA", "t1", 1000000), ("tok", "0xB", "t2", 1000000),
     ("tok", "0xC", "t3", 1000000)] (by decide)

theorem processEvents_append (txCount : String → Option Nat)
    (resolve : String → Option MarketInfo) (thr : Nat) (now : Int)
    (l1 l2 : List TradeEvent) (s : SysState) :
    processEvents txCount resolve thr now s (l1 ++ l2)
      = ((processEvents txCount resolve thr now
            (processEvents txCount resolve thr now s l1).1 l2).1,
         (processEvents txCount resolve thr now s l1).2
           ++ (processEvents txCount resolve thr now
            (processEvents txCount resolve thr now s l1).1 l2).2) := by
  induction l1 generalizing s with
  | nil => simp [processEvents]
  | cons ev rest ih =>
    simp only [List.cons_append, processEvents, List.append_eq]
    rw [ih]
    simp [List.append_assoc]

theorem scanChunksAux_done (fetch : Nat → Nat → Except Unit (List TradeEvent))
    (txCount : String → Option Nat) (resolve : String → Option MarketInfo)
    (thr : Nat) (now : Int) (fuel fromBlock head : Nat) (s : SysState)
    (h : head < fromBlock) :
    scanChunksAux fetch txCount resolve thr now fuel fromBlock head s
      = (s, [], true) := by
  cases fuel with
  | zero => rfl
  | succ n =>
      simp only [scanChunksAux]
      rw [if_pos h]

theorem scanChunks_single (fetch : Nat → Nat → Except Unit (List TradeEvent))
    (txCount : String → Option Nat) (resolve : String → Option MarketInfo)
    (thr : Nat) (now : Int) (fromBlock head : Nat) (s : SysState)
    (events : List TradeEvent) (h1 : fromBlock ≤ head)
    (h2 : head ≤ fromBlock + 9) (hf : fetch fromBlock head = .ok events) :
    scanChunks fetch txCount resolve thr now fromBlock head s
      = ((processEvents txCount resolve thr now s events).1,
         (processEvents txCount resolve thr now s events).2, true) := by
  unfold scanChunks
  obtain ⟨n, hn⟩ : ∃ n, head + 1 - fromBlock = n + 1 :=
    ⟨head - fromBlock, by omega⟩
  rw [hn]
  simp only [scanChunksAux]
  rw [if_neg (by omega)]
  have htb : min (fromBlock + 10 - 1) head = head := by omega
  rw [htb, hf]
  dsimp only
  rw [scanChunksAux_done fetch txCount resolve thr now n (head + 1) head _
    (by omega)]
  simp

/-- C9: given identical event ordering, scanning blocks `[100,109]` in one
pass and then `[110,119]` in a second pass yields the same final bet-ledger
state as an unchunked scan of `[100,119]` in a single pass. -/
theorem chunked_scan_roundtrip
    (fetch fetch' : Nat → Nat → Except Unit (List TradeEvent))
    (txCount : String → Option Nat) (resolve : String → Option MarketInfo)
    (thr : Nat) (now : Int) (s : SysState) (e1 e2 : List TradeEvent)
    (h1 : fetch 100 109 = .ok e1) (h2 : fetch 110 119 = .ok e2)
    (h3 : fetch' 100 119 = .ok (e1 ++ e2)) :
    (scanChunks fetch txCount resolve thr now 110 119
        (scanChunks fetch txCount resolve thr now 100 109 s).1).1.betsByOutcome
      = (scanRangeDirect fetch' txCount resolve thr now 100 119
          s).1.betsByOutcome := by
  rw [scanChunks_single fetch txCount resolve thr now 100 109 s e1
    (by norm_num) (by norm_num) h1]
  rw [scanChunks_single fetch txCount resolve thr now 110 119 _ e2
    (by norm_num) (by norm_num) h2]
  unfold scanRangeDirect
  rw [h3]
  dsimp only
  rw [processEvents_append]

theorem chunked_scan_roundtrip_witness :
    (scanChunks
      (fun a b => if a == 100 && b == 109 then
          .ok [⟨"0xA", zeroAddress, "t", "t", 5000000, 0, "h1"⟩]
        else if a == 110 && b == 119 then
          .ok [⟨"0xB", zeroAddress, "t", "t", 7000000, 0, "h2"⟩]
        else .error ())
      (fun _ => some 0) (fun _ => none) 10 0 110 119
      ((scanChunks
        (fun a b => if a == 100 && b == 109 then
            .ok [⟨"0xA", zeroAddress, "t", "t", 5000000, 0, "h1"⟩]
          else if a == 110 && b == 119 then
            .ok [⟨"0xB", zeroAddress, "t", "t", 7000000, 0, "h2"⟩]
          else .error ())
        (fun _ => some 0) (fun _ => none) 10 0 100 109
        initState).1)).1.betsByOutcome
      = (scanRangeDirect
          (fun _ _ => .ok [⟨"0xA", zeroAddress, "t", "t", 5000000, 0, "h1"⟩,
            ⟨"0xB", zeroAddress, "t", "t", 7000000, 0, "h2"⟩])
          (fun _ => some 0) (fun _ => none) 10 0 100 119
          initState).1.betsByOutcome :=
  chunked_scan_roundtrip
    (fun a b => if a == 100 && b == 109 then
        .ok [⟨"0xA", zeroAddress, "t", "t", 5000000, 0, "h1"⟩]
      else if a == 110 && b == 119 then
        .ok [⟨"0xB", zeroAddress, "t", "t", 7000000, 0, "h2"⟩]
      else .error ())
    (fun _ _ => .ok [⟨"0xA", zeroAddress, "t", "t", 5000000, 0, "h1"⟩,
      ⟨"0xB", zeroAddress, "t", "t", 7000000, 0, "h2"⟩])
    (fun _ => some 0) (fun _ => none) 10 0 initState
    [⟨"0xA", zeroAddress, "t", "t", 5000000, 0, "h1"⟩]
    [⟨"0xB", zeroAddress, "t", "t", 7000000, 0, "h2"⟩]
    rfl rfl rfl

/-- C4 counterexample: with cursor 99 and head 119, the chunk `[100,109]` is
fetched and fully processed — its one trade is counted in `totalTrades` —
but the next chunk's fetch rejects, and the cycle leaves the cursor at 99
instead of advancing it to the processed chunk's end block 109; the claimed
per-chunk cursor advancement does not happen. -/
theorem cursor_not_advanced_per_chunk_cex :
    (runCycle cexFetch (fun _ => none) (fun _ => none) 10 0 (.ok 119) 99
      initState).1 = 99
    ∧ (runCycle cexFetch (fun _ => none) (fun _ => none) 10 0 (.ok 119) 99
      initState).2.1.totalTrades = 1
    ∧ (runCycle cexFetch (fun _ => none) (fun _ => none) 10 0 (.ok 119) 99
      initState).1 ≠ 109 := by
  decide

/-- C4 (amended): the cursor advances only at whole-cycle granularity: when
the head fetch succeeds with `head > cursor` and every chunk of
`[cursor+1, head]` processes without error, the cursor jumps to `head`; a
failure anywhere in the range (or a head-fetch failure, or no new blocks)
leaves the cursor exactly where it was, so the next cycle retries from the
start of the entire range — re-processing chunks that had already succeeded
in the failed cycle; the cursor never decreases. -/
theorem cursor_advances_per_cycle
    (fetch : Nat → Nat → Except Unit (List TradeEvent))
    (txCount : String → Option Nat) (resolve : String → Option MarketInfo)
    (thr : Nat) (now : Int) (headResult : Except Unit Nat) (cursor : Nat)
    (s : SysState) :
    cursor ≤ (runCycle fetch txCount resolve thr now headResult cursor s).1
    ∧ (∀ e, headResult = .error e →
        (runCycle fetch txCount resolve thr now headResult cursor s).1 = cursor)
    ∧ (∀ h, headResult = .ok h → h ≤ cursor →
        (runCycle fetch txCount resolve thr now headResult cursor s).1 = cursor)
    ∧ (∀ h, headResult = .ok h → cursor < h →
        (scanChunks fetch txCount resolve thr now (cursor + 1) h
          { s with lastBlock := h }).2.2 = false →
        (runCycle fetch txCount resolve thr now headResult cursor s).1 = cursor)
    ∧ (∀ h, headResult = .ok h → cursor < h →
        (scanChunks fetch txCount resolve thr now (cursor + 1) h
          { s with lastBlock := h }).2.2 = true →
        (runCycle fetch txCount resolve thr now headResult cursor s).1 = h)
    := by
  cases headResult with
  | error e =>
      refine ⟨le_refl _, fun _ _ => rfl, fun h hh => Except.noConfusion hh,
        fun h hh => Except.noConfusion hh, fun h hh => Except.noConfusion hh⟩
  | ok hd =>
      refine ⟨?_, fun e he => Except.noConfusion he, ?_, ?_, ?_⟩
      · unfold runCycle
        dsimp only
        by_cases hlt : cursor < hd
        · rw [if_pos hlt]
          by_cases hsc : (scanChunks fetch txCount resolve thr now (cursor + 1)
              hd { s with lastBlock := hd }).2.2 = true
          · rw [if_pos hsc]
            omega
          · rw [if_neg hsc]
        · rw [if_neg hlt]
      · intro h hh hle
        have hh' : h = hd := (Except.ok.inj hh).symm
        subst hh'
        unfold runCycle
        dsimp only
        rw [if_neg (by omega)]
      · intro h hh hlt hsc
        have hh' : h = hd := (Except.ok.inj hh).symm
        subst hh'
        unfold runCycle
        dsimp only
        rw [if_pos hlt, if_neg (by simp [hsc])]
      · intro h hh hlt hsc
        have hh' : h = hd := (Except.ok.inj hh).symm
        subst hh'
        unfold runCycle
        dsimp only
        rw [if_pos hlt, if_pos hsc]

theorem cursor_advances_per_cycle_witness :
    (runCycle (fun _ _ => .error ()) (fun _ => none) (fun _ => none) 10 0
      (.ok 119) 99 initState).1 = 99
    ∧ (runCycle (fun _ _ => .ok []) (fun _ => none) (fun _ => none) 10 0
      (.ok 119) 99 initState).1 = 119 := by
  constructor
  · exact (cursor_advances_per_cycle (fun _ _ => .error ()) (fun _ => none)
      (fun _ => none) 10 0 (.ok 119) 99 initState).2.2.2.1 119 rfl
      (by norm_num) (by decide)
  · exact (cursor_advances_per_cycle (fun _ _ => .ok []) (fun _ => none)
      (fun _ => none) 10 0 (.ok 119) 99 initState).2.2.2.2 119 rfl
      (by norm_num) (by decide)
